import Mathlib

/-!
Shallow embedding of `src/pool_arena.c` (dpretet/pool_arena).

Modelling choices, fixed once for the whole development:

* The build is the 64-bit one exercised by the repository's tests
  (`reg_size = sizeof(void *) = 8`, `log2_reg_size = 3`,
  `header_size = 3 * reg_size = 24`).
* Memory is a flat map `Nat → Int` from byte addresses to the word stored
  at that address.  The code only ever accesses memory at addresses of the
  form `base + 8k` for the bases it manipulates, so word-granular cells are
  an exact model; C `int` fields (4 bytes) sit alone in their word.
  C `int` values are modelled as unbounded `Int`; all quantified theorems
  keep every value far below `2^31`, where the model agrees with 32-bit
  two's-complement arithmetic.
* Pointers are byte addresses (`Nat`), `NULL` is the address 0 and the
  error sentinel `(void *)(-1)` is modelled by the `Int` return value `-1`.
* `pool_arena.c` takes the addresses of its own static pointer variables
  (`&current`, `&tmp_blk` in `get_loc_to_free`).  The statics are therefore
  part of the modelled address space: `current` lives at address 64,
  `tmp_blk` at 72 and `tmp_pt` at 80, in declaration order, below any
  arena (the arena handed to `pool_init` is always assumed to start at or
  above address 96, disjoint from the allocator's own statics, as it is in
  any real process image).  The three `int` statics (`pool_size`,
  `pool_allocated`, `pool_free_space`) never have their address taken and
  are kept as record fields.
* The `while (1)` loops are given explicit fuel; running out of fuel is an
  error value, and every theorem about a terminating run holds for the
  stated fuel.  Dereferencing `NULL` is an explicit error value as well.
-/

namespace PoolArena

/-- Size of a memory element: `sizeof(void *)` on the 64-bit build. -/
def reg_size : Nat := 8

/-- `log2_reg_size`: 3 on the 64-bit build. -/
def log2_reg_size : Nat := 3

/-- Size of a free-block header: `3 * reg_size`. -/
def header_size : Nat := 24

/-- Modelled address of the static variable `blk_t * current`. -/
def addr_current : Nat := 64

/-- Modelled address of the static variable `blk_t * tmp_blk`. -/
def addr_tmp_blk : Nat := 72

/-- Modelled address of the static variable `void * tmp_pt`. -/
def addr_tmp_pt : Nat := 80

/-- The allocator state: flat memory plus the three `int` statics. -/
structure St where
  mem : Nat → Int
  pool_size : Int
  pool_allocated : Int
  pool_free_space : Int

/-- Value of the global cursor `current`, read as a pointer. -/
def currentOf (s : St) : Nat := (s.mem addr_current).toNat

/-- Write one word of memory (used for direct global-variable writes). -/
def gwrite (s : St) (a : Nat) (v : Int) : St :=
  { s with mem := Function.update s.mem a v }

/-- Runtime faults the embedding makes explicit: dereferencing `NULL`,
and exhausting the fuel of a `while (1)` loop (non-termination). -/
inductive MErr
  | nullDeref
  | fuelOut
  deriving DecidableEq, Repr

/-- Computations that can fault. -/
abbrev M (α : Type) := Except MErr α

/-- Read the word at offset `off` of the struct pointed to by `p`
(`p->size` is offset 0, `p->prv` offset 8, `p->nxt` offset 16). -/
def load (s : St) (p off : Nat) : M Int :=
  if p = 0 then .error .nullDeref else .ok (s.mem (p + off))

/-- Write the word at offset `off` of the struct pointed to by `p`. -/
def store (s : St) (p off : Nat) (v : Int) : M St :=
  if p = 0 then .error .nullDeref else .ok (gwrite s (p + off) v)

/-- `pool_init(addr, size)` from `src/pool_arena.c:52`. Returns the new
state and the C return value. -/
def pool_init (s : St) (addr : Nat) (size : Int) : St × Int :=
  if addr = 0 then (s, -1)
  else if size ≤ (header_size : Int) then (s, -1)
  else
    let s := gwrite s addr_tmp_blk 0                  -- tmp_blk = 0
    let s := gwrite s addr_tmp_pt 0                   -- tmp_pt = 0
    let s := { s with pool_size := size - reg_size,   -- pool_size = size - reg_size
                      pool_free_space := size - reg_size,
                      pool_allocated := 0 }
    let s := gwrite s addr_current (addr : Int)       -- current = (blk_t *)addr
    let s := gwrite s addr (size - reg_size)          -- current->size = pool_free_space
    let s := gwrite s (addr + reg_size) 0             -- current->prv = NULL
    let s := gwrite s (addr + 2 * reg_size) 0         -- current->nxt = NULL
    (s, 0)

/-- `round_up` from `src/pool_arena.c:104`:
`((*x + 7) >> log2_reg_size) << log2_reg_size`.  The code only calls it on
the non-negative request size, where C's shifts agree with `Nat` shifts. -/
def round_up (x : Int) : Int :=
  ((((x.toNat + 7) >>> log2_reg_size) <<< log2_reg_size : Nat) : Int)

/-- `pool_malloc(size)` from `src/pool_arena.c:118`.  Returns the state and
the returned pointer value (`-1` is the error sentinel, otherwise the
payload address). -/
def pool_malloc (s : St) (size : Int) : M (St × Int) := do
  let cur := currentOf s
  let curSize ← load s cur 0
  -- if (current->size <= (size + header_size)) return (void *)(-1);
  if curSize ≤ size + (header_size : Int) then
    return (s, -1)
  else
    -- _size = round_up(&size);
    let usize := round_up size
    -- pool_allocated += _size + reg_size;
    let s := { s with pool_allocated := s.pool_allocated + usize + reg_size }
    -- ret = (char *)current + reg_size;
    let ret : Int := (cur : Int) + reg_size
    -- nxt_pt = current->nxt; prv_pt = current->prv;
    let nxt_pt ← load s cur 16
    let prv_pt ← load s cur 8
    -- new_size = current->size - reg_size - _size;
    let new_size := curSize - reg_size - usize
    -- new_space = (char *)current + reg_size + _size; current = new_space;
    let new_space : Nat := cur + reg_size + usize.toNat
    let s := gwrite s addr_current (new_space : Int)
    if new_size < 0 then
      -- current->size = 0; return (void *)(-1);
      let s ← store s new_space 0 0
      return (s, -1)
    else
      -- current->size = new_size;
      let s ← store s new_space 0 new_size
      -- current->prv = prv_pt; current->nxt = nxt_pt;
      let s ← store s new_space 8 prv_pt
      let s ← store s new_space 16 nxt_pt
      -- if (current->prv) { tmp_blk = prv_pt; tmp_blk->nxt = current; }
      let p ← load s new_space 8
      let s ←
        if p ≠ 0 then do
          let s := gwrite s addr_tmp_blk p
          store s p.toNat 16 ((new_space : Nat) : Int)
        else pure s
      -- if (current->nxt) { tmp_blk = nxt_pt; tmp_blk->prv = current; }
      let n ← load s new_space 16
      let s ←
        if n ≠ 0 then do
          let s := gwrite s addr_tmp_blk n
          store s n.toNat 8 ((new_space : Nat) : Int)
        else pure s
      return (s, ret)

/-- The `prv`-direction `while (1)` loop of `get_loc_to_free`
(`src/pool_arena.c:247`), with explicit fuel.  Each iteration sets
`loc = (blk_t *)(&tmp_blk)`, so every exit returns the address of the
static `tmp_blk` itself. -/
def loc_loop_prv (addr : Nat) : Nat → St → M (St × Nat)
  | 0, _ => .error .fuelOut
  | fuel + 1, s => do
    let tb := (s.mem addr_tmp_blk).toNat
    let prv ← load s tb 8
    if prv = 0 then return (s, addr_tmp_blk)
    else if (addr : Int) > prv then return (s, addr_tmp_blk)
    else loc_loop_prv addr fuel (gwrite s addr_tmp_blk prv)

/-- The `nxt`-direction `while (1)` loop of `get_loc_to_free`
(`src/pool_arena.c:262`), with explicit fuel. -/
def loc_loop_nxt (addr : Nat) : Nat → St → M (St × Nat)
  | 0, _ => .error .fuelOut
  | fuel + 1, s => do
    let tb := (s.mem addr_tmp_blk).toNat
    let nxt ← load s tb 16
    if nxt = 0 then return (s, addr_tmp_blk)
    else if (addr : Int) < nxt then return (s, addr_tmp_blk)
    else loc_loop_nxt addr fuel (gwrite s addr_tmp_blk nxt)

/-- `get_loc_to_free(addr)` from `src/pool_arena.c:231`.  Note that the
source returns `(void *)(&current)` in the monolithic case and
`(blk_t *)(&tmp_blk)` from the loops: the *addresses of the statics*, not
the blocks they point to. -/
def get_loc_to_free (s : St) (addr : Nat) (fuel : Nat) : M (St × Nat) := do
  let cur := currentOf s
  let curPrv ← load s cur 8
  let curNxt ← load s cur 16
  -- if (current->prv == NULL && current->nxt == NULL) return (void *)(&current);
  if curPrv = 0 ∧ curNxt = 0 then
    return (s, addr_current)
  else
    -- tmp_pt = (blk_t *)(&current); tmp_blk = tmp_pt;
    let s := gwrite s addr_tmp_pt (addr_current : Int)
    let s := gwrite s addr_tmp_blk (addr_current : Int)
    -- if (addr < tmp_pt) { prv loop } else { nxt loop }
    if addr < (s.mem addr_tmp_pt).toNat then loc_loop_prv addr fuel s
    else loc_loop_nxt addr fuel s

/-- `pool_free(addr)` from `src/pool_arena.c:290`.  The local pointers
`blk` and `blk_pt` always hold the same address in the source, so a single
variable models both. -/
def pool_free (s : St) (addr : Nat) (fuel : Nat) : M (St × Int) := do
  -- blk_pt = (char *)addr - reg_size; blk = blk_pt;
  let blk_pt := addr - reg_size
  -- pool_free_space += blk->size;
  let blkSize ← load s blk_pt 0
  let s := { s with pool_free_space := s.pool_free_space + blkSize }
  -- free_pt = get_loc_to_free(blk_pt);
  let (s, free_pt) ← get_loc_to_free s blk_pt fuel
  -- 1. Check the block can be merged with the current free space selected
  let (s, blk_pt) ←
    if blk_pt < free_pt then do
      let bsz ← load s blk_pt 0
      -- region = (char *)blk_pt + blk->size + reg_size;
      let region : Int := (blk_pt : Int) + bsz + reg_size
      if region = (free_pt : Int) then do
        let fprv ← load s free_pt 8
        let s ← store s blk_pt 8 fprv               -- blk->prv = free_blk->prv
        let fnxt ← load s free_pt 16
        let s ← store s blk_pt 16 fnxt              -- blk->nxt = free_blk->nxt
        let fsz ← load s free_pt 0
        let bsz2 ← load s blk_pt 0
        let s ← store s blk_pt 0 (bsz2 + (fsz + header_size))  -- blk->size += free_blk->size + header_size
        let s := { s with pool_free_space := s.pool_free_space + reg_size }
        let bn ← load s blk_pt 16
        let s ←
          if bn ≠ 0 then do                         -- if (blk->nxt != NULL)
            let s := gwrite s addr_tmp_blk bn       -- tmp_blk = blk->nxt
            store s bn.toNat 8 ((blk_pt : Nat) : Int)  -- tmp_blk->prv = blk_pt
          else pure s
        let bp ← load s blk_pt 8
        let s ←
          if bp ≠ 0 then do                         -- if (blk->prv != NULL)
            let s := gwrite s addr_tmp_blk bp       -- tmp_blk = blk->prv
            store s bp.toNat 16 ((blk_pt : Nat) : Int) -- tmp_blk->nxt = blk_pt
          else pure s
        pure (s, blk_pt)
      else pure (s, blk_pt)
    else do
      let fsz ← load s free_pt 0
      -- region = (char *)free_pt + free_blk->size + header_size;
      let region : Int := (free_pt : Int) + fsz + header_size
      if region = (blk_pt : Int) then do
        let bsz ← load s blk_pt 0
        let fsz2 ← load s free_pt 0
        let s ← store s free_pt 0 (fsz2 + (bsz + reg_size))  -- free_blk->size += blk->size + reg_size
        -- blk_pt = free_pt; blk = blk_pt;
        let s := { s with pool_free_space := s.pool_free_space + reg_size }
        pure (s, free_pt)
      else pure (s, blk_pt)
  -- 2. Try to merge with next block if exists
  let bnxt ← load s blk_pt 16
  let s ←
    if bnxt ≠ 0 then do
      let bsz ← load s blk_pt 0
      -- region = (char *)blk_pt + blk->size + reg_size;
      let region : Int := (blk_pt : Int) + bsz + reg_size
      if region = bnxt then do
        let s := gwrite s addr_tmp_blk bnxt          -- tmp_blk = blk->nxt
        let tsz ← load s bnxt.toNat 0
        let s ← store s blk_pt 0 (bsz + (tsz + reg_size))  -- blk->size += tmp_blk->size + reg_size
        let tn ← load s bnxt.toNat 16
        let s := gwrite s addr_tmp_blk tn            -- tmp_blk = tmp_blk->nxt
        let s ← store s tn.toNat 8 ((blk_pt : Nat) : Int)  -- tmp_blk->prv = blk_pt
        let s := { s with pool_free_space := s.pool_free_space + reg_size }
        pure s
      else pure s
    else pure s
  -- 3. Try to merge with previous block if exists
  let bprv ← load s blk_pt 8
  let s ←
    if bprv ≠ 0 then do
      let s := gwrite s addr_tmp_blk bprv            -- tmp_blk = blk->prv
      let tsz ← load s bprv.toNat 0
      -- region = (char *)blk->prv + tmp_blk->size + header_size;
      let region : Int := bprv + tsz + header_size
      if region = (blk_pt : Int) then do
        let bsz ← load s blk_pt 0
        let s ← store s bprv.toNat 0 (tsz + (reg_size + bsz))  -- tmp_blk->size += reg_size + blk->size
        let bn ← load s blk_pt 16
        let s ← store s bprv.toNat 16 bn             -- tmp_blk->nxt = blk->nxt
        let blk2 ← load s blk_pt 8                   -- blk = blk->prv
        let tb2 ← load s blk2.toNat 16               -- tmp_blk = blk->nxt
        let s := gwrite s addr_tmp_blk tb2
        let s ← store s tb2.toNat 8 blk2             -- tmp_blk->prv = (void *)blk
        let s := { s with pool_free_space := s.pool_free_space + reg_size }
        pure s
      else pure s
    else pure s
  return (s, 0)

/-- The `prv`-direction walk of `pool_check_free_space`
(`src/pool_arena.c:388`): accumulates the visited sizes and node count. -/
def check_loop_prv : Nat → St → Int → Int → M (St × Int × Int)
  | 0, _, _, _ => .error .fuelOut
  | fuel + 1, s, size, nb => do
    let tb := (s.mem addr_tmp_blk).toNat
    let tsz ← load s tb 0
    let size := size + tsz
    let nb := nb + 1
    let prv ← load s tb 8
    if prv ≠ 0 then check_loop_prv fuel (gwrite s addr_tmp_blk prv) size nb
    else return (s, size, nb)

/-- The `nxt`-direction walk of `pool_check_free_space`
(`src/pool_arena.c:414`). -/
def check_loop_nxt : Nat → St → Int → Int → M (St × Int × Int)
  | 0, _, _, _ => .error .fuelOut
  | fuel + 1, s, size, nb => do
    let tb := (s.mem addr_tmp_blk).toNat
    let tsz ← load s tb 0
    let size := size + tsz
    let nb := nb + 1
    let nxt ← load s tb 16
    if nxt ≠ 0 then check_loop_nxt fuel (gwrite s addr_tmp_blk nxt) size nb
    else return (s, size, nb)

/-- `pool_check_free_space(used)` from `src/pool_arena.c:377`. -/
def pool_check_free_space (s : St) (used : Int) (fuel : Nat) : M (St × Int) := do
  -- tmp_pt = current; tmp_blk = tmp_pt;
  let s := gwrite s addr_tmp_pt ((currentOf s : Nat) : Int)
  let s := gwrite s addr_tmp_blk (s.mem addr_tmp_pt)
  let (s, size, nb) ← check_loop_prv fuel s 0 0
  -- tmp_pt = current; tmp_blk = tmp_pt;
  let s := gwrite s addr_tmp_pt ((currentOf s : Nat) : Int)
  let s := gwrite s addr_tmp_blk (s.mem addr_tmp_pt)
  -- size -= tmp_blk->size; nb_fb -= 1;
  let tsz ← load s (s.mem addr_tmp_blk).toNat 0
  let size := size - tsz
  let nb := nb - 1
  let (s, size, _nb) ← check_loop_nxt fuel s size nb
  -- size += used;
  let size := size + used
  -- if (size != pool_size) return 1; return 0;
  if size ≠ s.pool_size then return (s, 1) else return (s, 0)

/-- Walk `prv` links from `p` to the head of the free list (with fuel). -/
def headPrv (s : St) : Nat → Nat → Nat
  | 0, p => p
  | fuel + 1, p =>
    let v := s.mem (p + 8)
    if v = 0 then p else headPrv s fuel v.toNat

/-- Collect the `nxt`-chain starting at `p` (with fuel). -/
def chainNxt (s : St) : Nat → Nat → List Nat
  | 0, _ => []
  | fuel + 1, p =>
    p :: (let v := s.mem (p + 16); if v = 0 then [] else chainNxt s fuel v.toNat)

/-- The free list of state `s`: all blocks reachable from the cursor,
listed in `nxt` order starting from the lowest (`prv`-most) one. -/
def freeList (s : St) (fuel : Nat) : List Nat :=
  chainNxt s fuel (headPrv s fuel (currentOf s))

/-- Sum of the `size` fields of the listed blocks. -/
def sumSizes (s : St) (l : List Nat) : Int :=
  l.foldr (fun a acc => s.mem a + acc) 0

end PoolArena

namespace PoolArena

/-! ### Concrete executions

`s0` is an all-zero machine; `sInit` is the state after
`pool_init(arena = 4096, 1024)`; `s1`, `s2` follow one and two
`pool_malloc(16)` calls.  These drive the concrete theorems below. -/

/-- A machine whose memory is all zero and whose statics are zeroed. -/
def s0 : St := ⟨fun _ => 0, 0, 0, 0⟩

/-- State after `pool_init(4096, 1024)` on `s0`. -/
def sInit : St := (pool_init s0 4096 1024).1

/-- State after one `pool_malloc(16)` (payload pointer 4104) on `sInit`. -/
def s1 : St := match pool_malloc sInit 16 with | .ok p => p.1 | .error _ => s0

/-- State after a second `pool_malloc(16)` (payload pointer 4128). -/
def s2 : St := match pool_malloc s1 16 with | .ok p => p.1 | .error _ => s0

/-- A well-formed two-node free list that the cursor-only check of
`pool_malloc` mishandles: cursor on the small block 4200 (size 32), a
larger block 4400 (size 240) linked after it. -/
def twoNode : St :=
  ⟨fun a =>
    if a = 64 then 4200
    else if a = 4200 then 32 else if a = 4208 then 0 else if a = 4216 then 4400
    else if a = 4400 then 240 else if a = 4408 then 4200 else if a = 4416 then 0
    else 0, 280, 0, 272⟩

/-- A spec-well-formed arena for the null-dereference scenario: a single
free block at 4096 (size 32, no links, cursor there) directly left of an
allocated block at 4152 (header 16); the payload words of the allocated
block are 4096 and 0. -/
def adjState : St :=
  ⟨fun a =>
    if a = 64 then 4096
    else if a = 4096 then 32 else if a = 4104 then 0 else if a = 4112 then 0
    else if a = 4152 then 16 else if a = 4160 then 4096 else if a = 4168 then 0
    else 0, 1000, 0, 0⟩

/-- C1: the claim says `pool_malloc` first-fit-searches the whole free
list and returns the sentinel only when no free block fits.  In the
well-formed two-node state `twoNode` the cursor block (4200, size 32) is
too small for a 100-byte request but block 4400 (size 240) fits under both
the raw (`100 + 24 < 240`) and the normalized (`round_up 100 + 24 < 240`)
fit predicate; `pool_malloc` still returns the sentinel `-1`, because it
only examines the cursor block (the traversal is an unimplemented TODO at
`src/pool_arena.c:129`). -/
theorem c1_only_cursor_checked :
    (pool_malloc twoNode 100).map (fun p => p.2) = .ok (-1) ∧
    freeList twoNode 9 = [4200, 4400] ∧
    twoNode.mem 4400 = 240 ∧
    (100 : Int) + header_size < 240 ∧ round_up 100 + header_size < 240 ∧
    (twoNode.mem 4200 : Int) ≤ 100 + header_size := by
  refine ⟨rfl, by decide, by decide, by decide, by decide, by decide⟩

/-- C2: the claim says the insertion-point search returns the unique
neighbour free block, and in particular the single element of a
one-element free list.  In `s1` the free list is the single block 4120,
yet `get_loc_to_free` returns 64 — the modelled address of the static
variable `current` itself (the source returns `(void *)(&current)`),
which is not the element 4120 and not a block of the arena at all. -/
theorem c2_returns_global_address :
    (get_loc_to_free s1 4096 9).map (fun p => p.2) = .ok addr_current ∧
    freeList s1 9 = [4120] ∧
    addr_current ≠ 4120 ∧ addr_current < 4096 := by
  refine ⟨rfl, by decide, by decide, by decide⟩

/-- C3: the claim predicts that releasing the second 16-byte payload
(4128) of `s2`, whose right neighbour is the free block F = 4144
(`B + W + S = 4120 + 8 + 16 = 4144`), yields one surviving block of size
`S + W + F.size = 16 + 8 + 968 = 992` at B and `free_bytes` up by
`S + W = 24`.  The code does none of this: the selected "neighbour" is
the static's address, no merge fires, the free list is still `[4144]`
with size 968, the released block is not in it, and `pool_free_space`
grows by the stale header word 992 (from 1016 to 2008), not by 24. -/
theorem c3_no_merge_on_release :
    (pool_free s2 4128 9).map
        (fun p => (p.1.pool_free_space, p.1.mem 4144, freeList p.1 9, p.2)) =
      .ok (2008, 968, [4144], 0) ∧
    s2.pool_free_space = 1016 ∧
    (2008 : Int) - 1016 ≠ 16 + reg_size ∧
    (968 : Int) ≠ 16 + reg_size + 968 ∧
    (4120 : Nat) ∉ [4144] := by
  refine ⟨rfl, by decide, by decide, by decide, by decide⟩

/-- C4: the claim says the header word at `P - W` equals `round_up(n)`.
After `pool_malloc(8)` on the fresh arena the payload pointer is 4104,
but the word at 4096 still holds the stale free-block size 1016: the
code never writes the allocated block's header (`round_up 8 = 8`). -/
theorem c4_header_not_written :
    (pool_malloc sInit 8).map (fun p => (p.2, p.1.mem 4096)) = .ok (4104, 1016) ∧
    round_up 8 = 8 ∧ (1016 : Int) ≠ 8 := by
  refine ⟨rfl, by decide, by decide⟩

/-- C5: the claim says `alloc(0)` returns null and leaves the arena
unchanged.  The code has no zero check: `pool_malloc(0)` on the fresh
arena returns the non-null payload pointer 4104 (not 0, not the sentinel
`-1`) and moves the cursor from 4096 to 4104. -/
theorem c5_alloc_zero_not_null :
    (pool_malloc sInit 0).map (fun p => (p.2, currentOf p.1)) = .ok (4104, 4104) ∧
    (4104 : Int) ≠ 0 ∧ (4104 : Int) ≠ -1 ∧
    currentOf sInit = 4096 ∧ (4104 : Nat) ≠ 4096 := by
  refine ⟨rfl, by decide, by decide, by decide, by decide⟩

/-- C6 counterexample: the claim says `init(base, N)` stores `N` as
`pool_size`; after `pool_init(4096, 1024)` the stored `pool_size` is
1016 = N - W, not 1024. -/
theorem c6_pool_size_counterexample :
    (pool_init s0 4096 1024).2 = 0 ∧
    (pool_init s0 4096 1024).1.pool_size = 1016 ∧ (1016 : Int) ≠ 1024 := by
  refine ⟨rfl, rfl, by decide⟩

/-- C7 counterexample: in `s2` (two live 16-byte allocations, free list
`[4144]` with size 968) `pool_check_free_space(48)` returns 0, but the
claimed balance `Σ free.size + in_use = pool_size - W * allocated_headers`
fails at `in_use = 48` for both readings of `pool_size` (the claimed
stored value `N = 1024` and the actually stored `N - W = 1016`):
`968 + 48 = 1016` differs from `1024 - 8 * 2 = 1008` and from
`1016 - 8 * 2 = 1000`. -/
theorem c7_check_counterexample :
    (pool_check_free_space s2 48 9).map (fun p => p.2) = .ok 0 ∧
    freeList s2 9 = [4144] ∧ s2.mem 4144 = 968 ∧
    (968 : Int) + 48 ≠ 1024 - 8 * 2 ∧
    (968 : Int) + 48 ≠ 1016 - 8 * 2 := by
  refine ⟨rfl, by decide, by decide, by decide, by decide⟩

/-- C9 counterexample: releasing payload 4128 in `s2` should, per the
claim, leave the cursor on the block that survives the release of
B = 4120 (B or what it merged into).  The code never updates the cursor
in `pool_free`: afterwards the cursor is still 4144 (the pre-existing
residual block), the free list is `[4144]`, and the released block 4120
is in no sense its target. -/
theorem c9_cursor_counterexample :
    (pool_free s2 4128 9).map (fun p => (currentOf p.1, freeList p.1 9)) =
      .ok (4144, [4144]) ∧
    (4144 : Nat) ≠ 4120 ∧ (4120 : Nat) ∉ [4144] := by
  refine ⟨rfl, by decide, by decide⟩

/-- C10: the claim says the merge write-throughs in `pool_free` only
happen through non-null pointers.  In the spec-well-formed arena
`adjState` (free block 4096 of size 32 directly left of allocated block
4152 whose first payload word is 4096), `pool_free(4160)` enters the
merge-with-previous branch, copies the freed block's null `nxt` into the
merged block, reloads it as `tmp_blk` and writes `tmp_blk->prv` through
that null pointer: the modelled run faults with `nullDeref`. -/
theorem c10_null_write_through :
    pool_free adjState 4160 9 = .error .nullDeref := rfl

end PoolArena

namespace PoolArena

/-! ### Small laws used by the symbolic executions -/

theorem ok_bind {α β : Type} (a : α) (f : α → M β) :
    (Except.ok a : M α) >>= f = f a := rfl

theorem pure_eq_ok {α : Type} (a : α) : (pure a : M α) = Except.ok a := rfl

theorem load_ok (s : St) (p off : Nat) (h : p ≠ 0) :
    load s p off = .ok (s.mem (p + off)) := by
  simp [load, h]

theorem store_ok (s : St) (p off : Nat) (v : Int) (h : p ≠ 0) :
    store s p off v = .ok (gwrite s (p + off) v) := by
  simp [store, h]

theorem gwrite_mem_eq (s : St) (a : Nat) (v : Int) : (gwrite s a v).mem a = v := by
  simp [gwrite]

theorem gwrite_mem_ne (s : St) (a b : Nat) (v : Int) (h : b ≠ a) :
    (gwrite s a v).mem b = s.mem b := by
  simp [gwrite, Function.update_noteq h]

theorem gwrite_pool_size (s : St) (a : Nat) (v : Int) :
    (gwrite s a v).pool_size = s.pool_size := rfl

theorem gwrite_pool_allocated (s : St) (a : Nat) (v : Int) :
    (gwrite s a v).pool_allocated = s.pool_allocated := rfl

theorem gwrite_pool_free_space (s : St) (a : Nat) (v : Int) :
    (gwrite s a v).pool_free_space = s.pool_free_space := rfl

theorem round_up_eq (x : Int) : round_up x = (((x.toNat + 7) / 8) * 8 : Nat) := by
  simp [round_up, log2_reg_size, Nat.shiftLeft_eq, Nat.shiftRight_eq_div_pow]

theorem round_up_le (x : Int) (h : 0 ≤ x) : round_up x ≤ x + 7 := by
  rw [round_up_eq]
  have h1 : ((x.toNat + 7) / 8) * 8 ≤ x.toNat + 7 := Nat.div_mul_le_self _ _
  omega

theorem round_up_ge8 (x : Int) (h : 1 ≤ x) : (8 : Int) ≤ round_up x := by
  rw [round_up_eq]
  omega

theorem round_up_cases (x : Int) (h : 1 ≤ x) :
    (round_up x).toNat = 8 ∨ 16 ≤ (round_up x).toNat := by
  have h1 := round_up_ge8 x h
  rw [round_up_eq] at h1 ⊢
  omega

end PoolArena

namespace PoolArena

theorem mem_upd_alloc (s : St) (v : Int) :
    ({ s with pool_allocated := v } : St).mem = s.mem := rfl

theorem mem_upd_free_space (s : St) (v : Int) :
    ({ s with pool_free_space := v } : St).mem = s.mem := rfl

theorem pool_size_upd_free_space (s : St) (v : Int) :
    ({ s with pool_free_space := v } : St).pool_size = s.pool_size := rfl

/-- The state built by a successful `pool_malloc`: statistics bumped, the
cursor moved past the carved chunk, and the residual header written (with
the old links, which the success path then re-reads). -/
def mallocSt (s : St) (size : Int) : St :=
  let cur := currentOf s
  let usize := round_up size
  let s1 : St := { s with pool_allocated := s.pool_allocated + usize + reg_size }
  let new_space : Nat := cur + reg_size + usize.toNat
  let s2 := gwrite s1 addr_current ((new_space : Nat) : Int)
  let s3 := gwrite s2 (new_space + 0) (s.mem (cur + 0) - reg_size - usize)
  let s4 := gwrite s3 (new_space + 8) (s1.mem (cur + 8))
  let s5 := gwrite s4 (new_space + 16) (s1.mem (cur + 16))
  s5

theorem malloc_fail (s : St) (size : Int) (h0 : currentOf s ≠ 0)
    (hfit : s.mem (currentOf s) ≤ size + (header_size : Int)) :
    pool_malloc s size = .ok (s, -1) := by
  have lc : ∀ (t : St) off, load t (currentOf s) off = .ok (t.mem (currentOf s + off)) :=
    fun t off => load_ok t _ off h0
  simp only [pool_malloc, lc, ok_bind, Nat.add_zero]
  rw [if_pos hfit]
  rfl

theorem malloc_ok (s : St) (size : Int) (hsz : 1 ≤ size)
    (h96 : 96 ≤ currentOf s)
    (hfit : size + (header_size : Int) < s.mem (currentOf s))
    (hp : s.mem (currentOf s + 8) = 0)
    (hn : s.mem (currentOf s + 16) = 0) :
    pool_malloc s size = .ok (mallocSt s size, (currentOf s : Int) + reg_size) := by
  have h0 : currentOf s ≠ 0 := by omega
  have hrs : (reg_size : Int) = 8 := rfl
  have hhs : (header_size : Int) = 24 := rfl
  have hle : round_up size ≤ size + 7 := round_up_le size (by omega)
  have hge : (8 : Int) ≤ round_up size := round_up_ge8 size hsz
  have hns0 : currentOf s + reg_size + (round_up size).toNat ≠ 0 := by
    have : reg_size = 8 := rfl
    omega
  have lc : ∀ (t : St) off, load t (currentOf s) off = .ok (t.mem (currentOf s + off)) :=
    fun t off => load_ok t _ off h0
  have ln : ∀ (t : St) off,
      load t (currentOf s + reg_size + (round_up size).toNat) off =
        .ok (t.mem (currentOf s + reg_size + (round_up size).toNat + off)) :=
    fun t off => load_ok t _ off hns0
  have sn : ∀ (t : St) off v,
      store t (currentOf s + reg_size + (round_up size).toNat) off v =
        .ok (gwrite t (currentOf s + reg_size + (round_up size).toNat + off) v) :=
    fun t off v => store_ok t _ off v hns0
  have hne1 : currentOf s + reg_size + (round_up size).toNat + 8 ≠
      currentOf s + reg_size + (round_up size).toNat + 16 := by omega
  simp only [pool_malloc, mallocSt, lc, ln, sn, ok_bind, pure_eq_ok, Nat.add_zero]
  rw [if_neg (not_le.mpr hfit)]
  rw [if_neg (show ¬ (s.mem (currentOf s) - (reg_size : Int) - round_up size < 0) by omega)]
  simp only [gwrite_mem_ne _ _ _ _ hne1, gwrite_mem_eq, mem_upd_alloc, hp, hn]
  simp

end PoolArena

namespace PoolArena

theorem get_loc_mono (s : St) (a fuel : Nat)
    (h0 : currentOf s ≠ 0)
    (hp : s.mem (currentOf s + 8) = 0)
    (hn : s.mem (currentOf s + 16) = 0) :
    get_loc_to_free s a fuel = .ok (s, addr_current) := by
  have lc : ∀ (t : St) off, load t (currentOf s) off = .ok (t.mem (currentOf s + off)) :=
    fun t off => load_ok t _ off h0
  simp only [get_loc_to_free, lc, ok_bind, hp, hn]
  simp only [pure_eq_ok, if_pos (And.intro rfl rfl)]
  simp

theorem free_noop (s : St) (b : Nat) (fuel : Nat)
    (hb96 : 96 ≤ b)
    (h0 : currentOf s ≠ 0)
    (hblt : (b : Int) + 16 ≤ s.mem addr_current)
    (hp : s.mem (currentOf s + 8) = 0)
    (hn : s.mem (currentOf s + 16) = 0)
    (hbp : s.mem (b + 8) = 0)
    (hbn : s.mem (b + 16) = 0 ∨ s.mem (b + 16) < s.mem b + (b : Int) + 8) :
    pool_free s (b + reg_size) fuel =
      .ok ({ s with pool_free_space := s.pool_free_space + s.mem b }, 0) := by
  have hb0 : b ≠ 0 := by omega
  have hrs : (reg_size : Int) = 8 := rfl
  have hhs : (header_size : Int) = 24 := rfl
  have hacn : (addr_current : Nat) = 64 := rfl
  have lb : ∀ (t : St) off, load t b off = .ok (t.mem (b + off)) :=
    fun t off => load_ok t _ off hb0
  have la : ∀ (t : St) off, load t addr_current off = .ok (t.mem (addr_current + off)) :=
    fun t off => load_ok t _ off (by decide)
  have hg : get_loc_to_free ({ s with pool_free_space := s.pool_free_space + s.mem b }) b fuel =
      .ok ({ s with pool_free_space := s.pool_free_space + s.mem b }, addr_current) :=
    get_loc_mono _ b fuel h0 hp hn
  have hnlt : ¬ (b < addr_current) := by omega
  have hreg1 : ¬ (((addr_current : Nat) : Int) + s.mem addr_current + (header_size : Int) = (b : Int)) := by
    omega
  simp only [pool_free, Nat.add_sub_cancel, lb, ok_bind, Nat.add_zero, mem_upd_free_space]
  rw [hg]
  simp only [ok_bind]
  rw [if_neg hnlt]
  simp only [la, lb, ok_bind, pure_eq_ok, mem_upd_free_space, Nat.add_zero]
  rw [if_neg hreg1]
  simp only [la, lb, ok_bind, pure_eq_ok, mem_upd_free_space, Nat.add_zero, hbp]
  rcases hbn with h1 | h2
  · simp [h1]
  · by_cases hz : s.mem (b + 16) = 0
    · simp [hz]
    · simp only [ne_eq, hz, not_false_eq_true, if_true, ite_true]
      rw [if_neg (show ¬ ((b : Int) + s.mem b + (reg_size : Int) = s.mem (b + 16)) by omega)]
      simp

end PoolArena

namespace PoolArena

theorem currentOf_gwrite_tmp (t : St) (v w : Int) :
    currentOf (gwrite (gwrite t addr_tmp_pt v) addr_tmp_blk w) = currentOf t := by
  unfold currentOf
  rw [gwrite_mem_ne _ _ _ _ (by decide), gwrite_mem_ne _ _ _ _ (by decide)]

theorem mem_gwrite_tmp (t : St) (v w : Int) (x : Nat) (hx : 96 ≤ x) :
    (gwrite (gwrite t addr_tmp_pt v) addr_tmp_blk w).mem x = t.mem x := by
  rw [gwrite_mem_ne _ _ _ _ (show x ≠ addr_tmp_blk by simp only [addr_tmp_blk]; omega),
    gwrite_mem_ne _ _ _ _ (show x ≠ addr_tmp_pt by simp only [addr_tmp_pt]; omega)]

theorem check_ok (s : St) (used : Int) (fuel : Nat)
    (h96 : 96 ≤ currentOf s)
    (hp : s.mem (currentOf s + 8) = 0)
    (hn : s.mem (currentOf s + 16) = 0) :
    (pool_check_free_space s used (fuel + 1)).map (fun p => p.2) =
      .ok (if s.mem (currentOf s) + used = s.pool_size then 0 else 1) := by
  have h0 : currentOf s ≠ 0 := by omega
  have lc : ∀ (t : St) off, load t (currentOf s) off = .ok (t.mem (currentOf s + off)) :=
    fun t off => load_ok t _ off h0
  simp [pool_check_free_space, check_loop_prv, check_loop_nxt, gwrite_mem_eq,
    currentOf_gwrite_tmp, lc, ok_bind, pure_eq_ok,
    mem_gwrite_tmp _ _ _ _ h96, mem_gwrite_tmp _ _ _ _ (show 96 ≤ currentOf s + 8 by omega),
    mem_gwrite_tmp _ _ _ _ (show 96 ≤ currentOf s + 16 by omega),
    hp, hn, gwrite_pool_size]
  split <;> rfl

end PoolArena

namespace PoolArena

theorem gwrite_mem_apply (s : St) (a b : Nat) (v : Int) :
    (gwrite s a v).mem b = if b = a then v else s.mem b := by
  by_cases h : b = a
  · subst h; rw [gwrite_mem_eq, if_pos rfl]
  · rw [gwrite_mem_ne _ _ _ _ h, if_neg h]

/-- The inductive invariant of states reachable through the public
operations: the statics sit below the arena, the cursor points at the one
free block of the list (its links are null — `pool_free` never inserts a
released block, so the list never grows), and every live allocation `b`
lies fully below the cursor with stale link words that make the merge
conditions of `pool_free` unsatisfiable. -/
structure Inv (A : Nat) (s : St) (L : List Nat) : Prop where
  base : 96 ≤ A
  curpos : 0 < s.mem addr_current
  curge : A ≤ currentOf s
  prv0 : s.mem (currentOf s + 8) = 0
  nxt0 : s.mem (currentOf s + 16) = 0
  blocks : ∀ b ∈ L, A ≤ b ∧ b + 16 ≤ currentOf s ∧ s.mem (b + 8) = 0 ∧
    (s.mem (b + 16) = 0 ∨ s.mem (b + 16) < s.mem b + (b : Int) + 8)

/-- States reachable from a successful `pool_init` by valid allocations
(positive request) and valid releases (of a live payload pointer), with
the ghost list of live block addresses (payload = block + W).  The bound
`A + N < 2^31` keeps every address and size below `INT_MAX`, where the
unbounded-`Int` model agrees with the C `int` arithmetic. -/
inductive Reach : Nat → St → List Nat → Prop
  | init (st0 : St) (A : Nat) (N : Int) (s : St) :
      96 ≤ A → A % 8 = 0 → (A : Int) + N < 2 ^ 31 →
      pool_init st0 A N = (s, 0) → Reach A s []
  | alloc (A : Nat) (s : St) (L : List Nat) (size : Int) (s' : St) (ret : Int) :
      Reach A s L → 1 ≤ size → pool_malloc s size = .ok (s', ret) →
      Reach A s' (if ret = -1 then L else (ret - reg_size).toNat :: L)
  | free (A : Nat) (s : St) (L : List Nat) (b fuel : Nat) (s' : St) (r : Int) :
      Reach A s L → b ∈ L → pool_free s (b + reg_size) fuel = .ok (s', r) →
      Reach A s' (L.erase b)

theorem init_shape (st0 : St) (A : Nat) (N : Int) (s : St) (h96 : 96 ≤ A)
    (heq : pool_init st0 A N = (s, 0)) :
    (header_size : Int) < N ∧
    s.mem addr_current = (A : Int) ∧ s.mem A = N - 8 ∧
    s.mem (A + 8) = 0 ∧ s.mem (A + 16) = 0 ∧
    s.pool_size = N - 8 ∧ s.pool_free_space = N - 8 ∧ s.pool_allocated = 0 := by
  have hA0 : A ≠ 0 := by omega
  rw [pool_init, if_neg hA0] at heq
  by_cases hN : N ≤ (header_size : Int)
  · rw [if_pos hN] at heq
    have h2 := congrArg Prod.snd heq
    simp at h2
  · rw [if_neg hN] at heq
    have h1 := congrArg Prod.fst heq
    simp only at h1
    subst h1
    simp only [reg_size, header_size, addr_current, addr_tmp_blk, addr_tmp_pt] at hN ⊢
    refine ⟨by omega, ?_, ?_, ?_, ?_, ?_, ?_, ?_⟩
    · rw [gwrite_mem_apply, if_neg (by omega), gwrite_mem_apply, if_neg (by omega),
        gwrite_mem_apply, if_neg (by omega), gwrite_mem_apply, if_pos rfl]
    · rw [gwrite_mem_apply, if_neg (by omega), gwrite_mem_apply, if_neg (by omega),
        gwrite_mem_apply, if_pos rfl]
      norm_num
    · rw [gwrite_mem_apply, if_neg (by omega), gwrite_mem_apply, if_pos rfl]
    · rw [gwrite_mem_apply, if_pos rfl]
    · show N - (reg_size : Int) = N - 8
      norm_num [reg_size]
    · show N - (reg_size : Int) = N - 8
      norm_num [reg_size]
    · rfl

theorem inv_init (st0 : St) (A : Nat) (N : Int) (s : St) (h96 : 96 ≤ A)
    (heq : pool_init st0 A N = (s, 0)) : Inv A s [] := by
  obtain ⟨hN, hm64, hmA, hmA8, hmA16, -, -, -⟩ := init_shape st0 A N s h96 heq
  have hcof : currentOf s = A := by
    unfold currentOf; rw [hm64]; simp
  refine ⟨h96, by rw [hm64]; omega, by omega, ?_, ?_, by simp⟩
  · rw [hcof]; exact hmA8
  · rw [hcof]; exact hmA16

end PoolArena

namespace PoolArena

theorem inv_malloc (A : Nat) (s : St) (L : List Nat) (ih : Inv A s L)
    (size : Int) (hsz : 1 ≤ size) :
    Inv A (mallocSt s size) (currentOf s :: L) := by
  obtain ⟨hA, hpos, hge, hp, hn, hblk⟩ := ih
  have h96c : 96 ≤ currentOf s := by omega
  have hru : round_up size = (((size.toNat + 7) / 8) * 8 : Nat) := round_up_eq size
  have htu : (round_up size).toNat = ((size.toNat + 7) / 8) * 8 := by rw [hru]; omega
  set u : Nat := ((size.toNat + 7) / 8) * 8 with hudef
  have hu8 : 8 ≤ u := by omega
  have hru8 : (8 : Int) ≤ round_up size := round_up_ge8 size hsz
  -- the four written cells of `mallocSt`
  have hlook : ∀ x, x ≠ currentOf s + 8 + u + 16 → x ≠ currentOf s + 8 + u + 8 →
      x ≠ currentOf s + 8 + u → x ≠ 64 → (mallocSt s size).mem x = s.mem x := by
    intro x h1 h2 h3 h4
    simp only [mallocSt, reg_size, addr_current, htu, Nat.add_zero, gwrite_mem_apply,
      mem_upd_alloc, if_neg h1, if_neg h2, if_neg h3, if_neg h4]
  have hlook64 : (mallocSt s size).mem 64 = ((currentOf s + 8 + u : Nat) : Int) := by
    simp only [mallocSt, reg_size, addr_current, htu, Nat.add_zero, gwrite_mem_apply,
      mem_upd_alloc]
    rw [if_neg (by omega), if_neg (by omega), if_neg (by omega)]
    simp
  have hlookns : (mallocSt s size).mem (currentOf s + 8 + u) =
      s.mem (currentOf s) - reg_size - round_up size := by
    simp only [mallocSt, reg_size, addr_current, htu, Nat.add_zero, gwrite_mem_apply,
      mem_upd_alloc]
    rw [if_neg (by omega), if_neg (by omega)]
    simp [reg_size]
  have hlookns8 : (mallocSt s size).mem (currentOf s + 8 + u + 8) = s.mem (currentOf s + 8) := by
    simp only [mallocSt, reg_size, addr_current, htu, Nat.add_zero, gwrite_mem_apply,
      mem_upd_alloc]
    rw [if_neg (by omega)]
    simp
  have hlookns16 : (mallocSt s size).mem (currentOf s + 8 + u + 16) = s.mem (currentOf s + 16) := by
    simp only [mallocSt, reg_size, addr_current, htu, Nat.add_zero, gwrite_mem_apply,
      mem_upd_alloc]
    simp
  have hcof : currentOf (mallocSt s size) = currentOf s + 8 + u := by
    show ((mallocSt s size).mem addr_current).toNat = currentOf s + 8 + u
    rw [show (addr_current : Nat) = 64 from rfl, hlook64]
    omega
  refine ⟨hA, ?_, ?_, ?_, ?_, ?_⟩
  · rw [show (addr_current : Nat) = 64 from rfl, hlook64]; omega
  · rw [hcof]; omega
  · rw [hcof, hlookns8, hp]
  · rw [hcof, hlookns16, hn]
  · intro b hb
    rcases List.mem_cons.mp hb with rfl | hbL
    · refine ⟨by omega, by rw [hcof]; omega, ?_, ?_⟩
      · rw [hlook _ (by omega) (by omega) (by omega) (by omega)]
        exact hp
      · rcases round_up_cases size hsz with h8 | h16
        · -- the residual header lands exactly on the old block's `nxt` word
          right
          rw [show currentOf s + 16 = currentOf s + 8 + u by omega, hlookns,
            hlook (currentOf s) (by omega) (by omega) (by omega) (by omega)]
          have hrsi : (reg_size : Int) = 8 := rfl
          omega
        · left
          rw [hlook _ (by omega) (by omega) (by omega) (by omega)]
          exact hn
    · obtain ⟨hbA, hbc, hbp8, hbd⟩ := hblk b hbL
      refine ⟨hbA, by rw [hcof]; omega, ?_, ?_⟩
      · rw [hlook _ (by omega) (by omega) (by omega) (by omega)]
        exact hbp8
      · rw [hlook (b + 16) (by omega) (by omega) (by omega) (by omega),
          hlook b (by omega) (by omega) (by omega) (by omega)]
        exact hbd

theorem inv_free (A : Nat) (s : St) (L : List Nat) (ih : Inv A s L) (b : Nat) :
    Inv A ({ s with pool_free_space := s.pool_free_space + s.mem b }) (L.erase b) := by
  obtain ⟨hA, hpos, hge, hp, hn, hblk⟩ := ih
  exact ⟨hA, hpos, hge, hp, hn, fun b' hb' => hblk b' (List.mem_of_mem_erase hb')⟩

theorem reach_inv (A : Nat) (s : St) (L : List Nat) (h : Reach A s L) : Inv A s L := by
  induction h with
  | init st0 A N s h96 h8 hbound heq => exact inv_init st0 A N s h96 heq
  | alloc A s L size s' ret hr hsz heq ih =>
    have h0 : currentOf s ≠ 0 := by have := ih.curge; have := ih.base; omega
    have h96c : 96 ≤ currentOf s := by have := ih.curge; have := ih.base; omega
    by_cases hfit : s.mem (currentOf s) ≤ size + (header_size : Int)
    · rw [malloc_fail s size h0 hfit] at heq
      injection heq with h1
      injection h1 with h1 h2
      subst h1; subst h2
      simpa using ih
    · rw [malloc_ok s size hsz h96c (not_le.mp hfit) ih.prv0 ih.nxt0] at heq
      injection heq with h1
      injection h1 with h1 h2
      subst h1; subst h2
      have hne : ¬ ((currentOf s : Int) + reg_size = -1) := by
        have : (reg_size : Int) = 8 := rfl
        omega
      rw [if_neg hne]
      have htn : (((currentOf s : Int) + reg_size) - reg_size).toNat = currentOf s := by
        simp
      rw [htn]
      exact inv_malloc A s L ih size hsz
  | free A s L b fuel s' r hr hb heq ih =>
    obtain ⟨hbA, hbc, hbp8, hbd⟩ := ih.blocks b hb
    have hc64 : ((currentOf s : Nat) : Int) = s.mem addr_current :=
      Int.toNat_of_nonneg (le_of_lt ih.curpos)
    have h0 : currentOf s ≠ 0 := by have := ih.curge; have := ih.base; omega
    rw [free_noop s b fuel (by have := ih.base; omega) h0 (by omega) ih.prv0 ih.nxt0
      hbp8 hbd] at heq
    injection heq with h1
    injection h1 with h1 h2
    subst h1; subst h2
    exact inv_free A s L ih b

end PoolArena

namespace PoolArena

theorem map_ok {α β : Type} (f : α → β) (a : α) :
    (Except.ok a : M α).map f = .ok (f a) := rfl

theorem freeList_singleton (s : St) (fuel : Nat) (hf : 1 ≤ fuel)
    (hp : s.mem (currentOf s + 8) = 0) (hn : s.mem (currentOf s + 16) = 0) :
    freeList s fuel = [currentOf s] := by
  obtain ⟨k, rfl⟩ : ∃ k, fuel = k + 1 := ⟨fuel - 1, by omega⟩
  unfold freeList
  have hh : headPrv s (k + 1) (currentOf s) = currentOf s := by
    simp only [headPrv, hp]
    simp
  rw [hh]
  simp only [chainNxt, hn]
  simp

/-- C6 (amended): `init(base, N)` returns a negative integer iff `base` is
null or `N ≤ 3W`, and otherwise returns 0 having written a single free
block at `base` with `size = N - W` and null links, set the cursor to
`base`, zeroed `allocated_bytes` and set `free_bytes = N - W` — but it
stores `N - W` (not `N`, as the claim said) as `pool_size`.  (`W = 8` on
this build; the success clause assumes the host buffer sits at or above
address 96, away from the allocator's own statics in the flat model.) -/
theorem c6_init_amended (st0 : St) (A : Nat) (N : Int) :
    ((pool_init st0 A N).2 < 0 ↔ (A = 0 ∨ N ≤ (header_size : Int))) ∧
    (96 ≤ A → (header_size : Int) < N →
      (pool_init st0 A N).2 = 0 ∧
      (pool_init st0 A N).1.mem A = N - 8 ∧
      (pool_init st0 A N).1.mem (A + 8) = 0 ∧
      (pool_init st0 A N).1.mem (A + 16) = 0 ∧
      currentOf (pool_init st0 A N).1 = A ∧
      (pool_init st0 A N).1.pool_allocated = 0 ∧
      (pool_init st0 A N).1.pool_free_space = N - 8 ∧
      (pool_init st0 A N).1.pool_size = N - 8) := by
  constructor
  · by_cases hA : A = 0
    · simp [pool_init, hA]
    · by_cases hN : N ≤ (header_size : Int)
      · simp [pool_init, hA, hN]
      · simp [pool_init, hA, hN]
  · intro h96 hN
    have h2 : (pool_init st0 A N).2 = 0 := by
      rw [pool_init, if_neg (show ¬ A = 0 by omega), if_neg (not_le.mpr hN)]
    have heq : pool_init st0 A N = ((pool_init st0 A N).1, 0) := by
      rw [← h2]
    obtain ⟨-, hm64, hmA, hmA8, hmA16, hps, hpf, hpa⟩ := init_shape st0 A N _ h96 heq
    refine ⟨h2, hmA, hmA8, hmA16, ?_, hpa, hpf, hps⟩
    show (((pool_init st0 A N).1).mem addr_current).toNat = A
    rw [hm64]
    omega

/-- C7 (amended): over every reachable state, `pool_check_free_space(used)`
returns 0 iff the sum of the `size` fields of the free blocks plus `used`
equals the *stored* `pool_size` (which is `N - W`); no `W · (count of
allocated headers)` term is subtracted, contrary to the claim. -/
theorem c7_check_amended (A : Nat) (s : St) (L : List Nat) (h : Reach A s L)
    (used : Int) (fuel : Nat) (hf : 1 ≤ fuel) :
    (pool_check_free_space s used fuel).map (fun p => p.2) =
      .ok (if sumSizes s (freeList s fuel) + used = s.pool_size then 0 else 1) := by
  have hinv := reach_inv A s L h
  have h96 : 96 ≤ currentOf s := by have := hinv.base; have := hinv.curge; omega
  obtain ⟨k, rfl⟩ : ∃ k, fuel = k + 1 := ⟨fuel - 1, by omega⟩
  rw [check_ok s used k h96 hinv.prv0 hinv.nxt0,
    freeList_singleton s (k + 1) (by omega) hinv.prv0 hinv.nxt0]
  simp [sumSizes]

/-- C8: in every state reachable from `pool_init` by valid allocations and
releases, the free list is strictly address-ordered
(`address(B.next) > address(B) + W + B.size` for every listed block with a
successor) and contains no address-adjacent pair — degenerately so: since
`pool_free` never inserts the released block, the list always stays the
single residual block, and both chain properties hold of it.  Every alloc
and free preserves this because `Reach` is closed under both. -/
theorem c8_free_list_ordered (A : Nat) (s : St) (L : List Nat) (h : Reach A s L)
    (fuel : Nat) (hf : 1 ≤ fuel) :
    List.Chain' (fun a b : Nat => (a : Int) + reg_size + s.mem a < (b : Int)) (freeList s fuel) ∧
    List.Chain' (fun a b : Nat => (a : Int) + reg_size + s.mem a ≠ (b : Int)) (freeList s fuel) := by
  have hinv := reach_inv A s L h
  rw [freeList_singleton s fuel hf hinv.prv0 hinv.nxt0]
  exact ⟨List.chain'_singleton _, List.chain'_singleton _⟩

/-- C9 (amended): `pool_free` of a live payload never moves the cursor:
afterwards the cursor still points to the same single listed free block as
before the call (which is the block that "survives", since the released
block never joins the list: it lies strictly below the cursor). -/
theorem c9_cursor_amended (A : Nat) (s : St) (L : List Nat) (h : Reach A s L)
    (b : Nat) (hb : b ∈ L) (fuel fl : Nat) (hfl : 1 ≤ fl) :
    (pool_free s (b + reg_size) fuel).map
        (fun p => (currentOf p.1, freeList p.1 fl, p.2)) =
      .ok (currentOf s, [currentOf s], 0) ∧ b < currentOf s := by
  have hinv := reach_inv A s L h
  obtain ⟨hbA, hbc, hbp8, hbd⟩ := hinv.blocks b hb
  have hc64 : ((currentOf s : Nat) : Int) = s.mem addr_current :=
    Int.toNat_of_nonneg (le_of_lt hinv.curpos)
  have h0 : currentOf s ≠ 0 := by have := hinv.curge; have := hinv.base; omega
  rw [free_noop s b fuel (by have := hinv.base; omega) h0 (by omega) hinv.prv0 hinv.nxt0
    hbp8 hbd]
  rw [map_ok]
  have hfs : freeList ({ s with pool_free_space := s.pool_free_space + s.mem b } : St) fl =
      [currentOf s] :=
    freeList_singleton _ fl hfl hinv.prv0 hinv.nxt0
  rw [hfs]
  exact ⟨rfl, by omega⟩

theorem reach_sInit : Reach 4096 sInit [] :=
  Reach.init s0 4096 1024 sInit (by decide) (by decide) (by decide) rfl

theorem reach_s1 : Reach 4096 s1 [4096] :=
  Reach.alloc 4096 sInit [] 16 s1 4104 reach_sInit (by decide) rfl

/-- C6 witness: the amended interface contract instantiated at the
concrete arena `pool_init(4096, 1024)`. -/
theorem c6_init_amended_witness :
    (pool_init s0 4096 1024).2 = 0 ∧ (pool_init s0 4096 1024).1.pool_size = 1024 - 8 :=
  ⟨((c6_init_amended s0 4096 1024).2 (by decide) (by decide)).1,
   ((c6_init_amended s0 4096 1024).2 (by decide) (by decide)).2.2.2.2.2.2.2⟩

/-- C7 witness: the amended audit contract at the fresh 1024-byte arena. -/
theorem c7_check_amended_witness :
    (pool_check_free_space sInit 0 9).map (fun p => p.2) =
      .ok (if sumSizes sInit (freeList sInit 9) + 0 = sInit.pool_size then 0 else 1) :=
  c7_check_amended 4096 sInit [] reach_sInit 0 9 (by decide)

/-- C8 witness: the ordering invariant at the fresh 1024-byte arena. -/
theorem c8_free_list_ordered_witness :
    List.Chain' (fun a b : Nat => (a : Int) + reg_size + sInit.mem a < (b : Int))
        (freeList sInit 1) ∧
    List.Chain' (fun a b : Nat => (a : Int) + reg_size + sInit.mem a ≠ (b : Int))
        (freeList sInit 1) :=
  c8_free_list_ordered 4096 sInit [] reach_sInit 1 (by decide)

/-- C9 witness: releasing the single live payload of `s1` leaves the
cursor on the pre-existing residual block. -/
theorem c9_cursor_amended_witness :
    (pool_free s1 (4096 + reg_size) 9).map
        (fun p => (currentOf p.1, freeList p.1 9, p.2)) =
      .ok (currentOf s1, [currentOf s1], 0) ∧ (4096 : Nat) < currentOf s1 :=
  c9_cursor_amended 4096 s1 [4096] reach_s1 4096 (by decide) 9 9 (by decide)

end PoolArena
